import Mathlib

/-!
Shallow embedding of the two salvo example applications:

* `examples/todos-oapi/src/main.rs` — an in-memory todo CRUD store:
  a `Mutex<Vec<Todo>>` with linear-scan create/update/delete handlers and
  a skip/take list handler.  The lock serializes every operation, so each
  handler is embedded as a pure function from the guarded vector (and the
  request data) to the response status and the vector afterwards.
* `examples/flash-session-store/src/main.rs` — flash-message rendering:
  the `get_flash` handler formats the incoming flash messages, one line
  per message.

Machine integers (`u64` ids, `usize` offsets/lengths) are embedded as
`Nat`: the handlers only compare them for equality or use them as list
indices, never performing wrapping arithmetic.
-/

namespace TodosOapi

/-- `models::Todo`: `id: u64`, `text: String`, `completed: bool`. -/
structure Todo where
  id : Nat
  text : String
  completed : Bool
deriving DecidableEq, Repr

/-- `models::ListOptions`: optional `offset` and `limit`, both `usize`. -/
structure ListOptions where
  offset : Option Nat
  limit : Option Nat
deriving DecidableEq, Repr

/-- `std::usize::MAX` on a 64-bit platform: the default `limit` used by
`list_todos` when the request supplies none. -/
def usizeMax : Nat := 2 ^ 64 - 1

/-- `models::new_store`: `Mutex::new(Vec::new())` — the store starts empty. -/
def new_store : List Todo := []

/-- `StatusCode::CREATED`. -/
def CREATED : Nat := 201

/-- `StatusCode::BAD_REQUEST` (the status `create_todo` sets on a duplicate id). -/
def BAD_REQUEST : Nat := 400

/-- `StatusCode::OK`. -/
def OK : Nat := 200

/-- `StatusCode::NOT_FOUND`. -/
def NOT_FOUND : Nat := 404

/-- `StatusCode::NO_CONTENT`. -/
def NO_CONTENT : Nat := 204

/-- `list_todos`: clones the guarded vector and collects
`.skip(opts.offset.unwrap_or(0)).take(opts.limit.unwrap_or(usize::MAX))`.
Returns the rendered list and the store afterwards (unchanged: the
iteration consumes the clone, never the guarded vector). -/
def list_todos (store : List Todo) (opts : ListOptions) : List Todo × List Todo :=
  let todos := (store.drop (opts.offset.getD 0)).take (opts.limit.getD usizeMax)
  (todos, store)

/-- `create_todo`: scans the vector; at the first entry sharing the new
todo's id it sets `BAD_REQUEST` and returns, leaving the store untouched;
otherwise it pushes the todo and sets `CREATED`. -/
def create_todo (store : List Todo) (new_todo : Todo) : Nat × List Todo :=
  if store.any (fun todo => todo.id == new_todo.id) then
    (BAD_REQUEST, store)
  else
    (CREATED, store ++ [new_todo])

/-- The `for todo in vec.iter_mut()` loop of `update_todo`: overwrite the
first entry whose id equals the path id with `updated_todo`; `none` when no
entry matches. -/
def replaceFirst (vec : List Todo) (id : Nat) (updated_todo : Todo) : Option (List Todo) :=
  match vec with
  | [] => none
  | todo :: rest =>
    if todo.id == id then some (updated_todo :: rest)
    else (replaceFirst rest id updated_todo).map (todo :: ·)

/-- `update_todo` after a successful body parse: `OK` with the first entry
matching the path id overwritten by the request-body todo, or `NOT_FOUND`
with the store unchanged. -/
def update_todo (store : List Todo) (id : Nat) (updated_todo : Todo) : Nat × List Todo :=
  match replaceFirst store id updated_todo with
  | some vec => (OK, vec)
  | none => (NOT_FOUND, store)

/-- `delete_todo` after a successful path-parameter parse:
`vec.retain(|todo| todo.id != id)`, then `NO_CONTENT` if the length changed
and `NOT_FOUND` otherwise. -/
def delete_todo (store : List Todo) (id : Nat) : Nat × List Todo :=
  let vec := store.filter (fun todo => todo.id != id)
  if vec.length != store.length then
    (NO_CONTENT, vec)
  else
    (NOT_FOUND, vec)

/-- `update_todo` including `req.parse_body::<Todo>().await.unwrap()`:
a body that fails to parse is unwrapped, aborting the request with a
runtime failure (`none`) instead of producing any response. -/
def update_todo_handler (parsed_body : Except String Todo) (id : Nat)
    (store : List Todo) : Option (Nat × List Todo) :=
  match parsed_body with
  | Except.error _ => none
  | Except.ok updated_todo => some (update_todo store id updated_todo)

/-- `delete_todo` including `req.param::<u64>("id").unwrap()`: a missing or
malformed path parameter is unwrapped, aborting the request with a runtime
failure (`none`) instead of producing any response. -/
def delete_todo_handler (parsed_id : Option Nat) (store : List Todo) :
    Option (Nat × List Todo) :=
  match parsed_id with
  | none => none
  | some id => some (delete_todo store id)

/-- One client operation against the guarded store (the lock serializes
them, so a history is a sequence of operations). -/
inductive Op where
  | create (todo : Todo)
  | update (id : Nat) (todo : Todo)
  | delete (id : Nat)
deriving DecidableEq, Repr

/-- Apply one operation to the store, keeping the vector and dropping the
response status. -/
def applyOp (store : List Todo) : Op → List Todo
  | Op.create todo => (create_todo store todo).2
  | Op.update id todo => (update_todo store id todo).2
  | Op.delete id => (delete_todo store id).2

/-- Apply a sequence of operations in order. -/
def applyOps (store : List Todo) (ops : List Op) : List Todo :=
  ops.foldl applyOp store

/-- The spec's store invariant: no two entries share an id. -/
def uniqueIds (store : List Todo) : Prop := (store.map Todo.id).Nodup

instance (store : List Todo) : Decidable (uniqueIds store) :=
  inferInstanceAs (Decidable ((store.map Todo.id).Nodup))

/-- An operation whose update body (if it is an update) carries the same id
as the path parameter used to locate the entry. -/
def idConsistent : Op → Prop
  | Op.update id todo => todo.id = id
  | Op.create _ => True
  | Op.delete _ => True

instance : DecidablePred idConsistent := fun op =>
  match op with
  | Op.update id todo => inferInstanceAs (Decidable (todo.id = id))
  | Op.create _ => inferInstanceAs (Decidable True)
  | Op.delete _ => inferInstanceAs (Decidable True)

end TodosOapi

namespace FlashSessionStore

/-- Modelled from the spec: the flash severity levels of the companion
`salvo_flash` crate, absent from the sources shown — "severity is one of a
small closed set (e.g. info, debug, warning, error)". -/
inductive FlashLevel where
  | info
  | debug
  | warning
  | error
deriving DecidableEq, Repr

/-- Modelled from the spec: the textual rendering of a severity level used
by the `"{} - {}"` format (the crate's `Display` impl is not in the shown
sources). -/
def FlashLevel.toString : FlashLevel → String
  | FlashLevel.info => "info"
  | FlashLevel.debug => "debug"
  | FlashLevel.warning => "warning"
  | FlashLevel.error => "error"

/-- A flash message: `(value: string, level: severity)`. -/
structure FlashMessage where
  value : String
  level : FlashLevel
deriving DecidableEq, Repr

/-- The line `writeln!(body, "{} - {}", message.value, message.level)`
appends for one message (including the trailing newline). -/
def flashLine (message : FlashMessage) : String :=
  message.value ++ " - " ++ message.level.toString ++ "\n"

/-- `get_flash`: starts from an empty body; if the depot carries an
incoming flash list, appends one formatted line per message in order. -/
def get_flash (incoming_flash : Option (List FlashMessage)) : String :=
  match incoming_flash with
  | none => ""
  | some flash =>
    flash.foldl (fun body message =>
      body ++ message.value ++ " - " ++ message.level.toString ++ "\n") ""

end FlashSessionStore

namespace TodosOapi

/-! ### Helper lemmas about the handlers -/

theorem create_any_iff (store : List Todo) (t : Todo) :
    store.any (fun todo => todo.id == t.id) = true ↔ ∃ x ∈ store, x.id = t.id := by
  simp [List.any_eq_true]

theorem create_conflict (store : List Todo) (t : Todo)
    (h : ∃ x ∈ store, x.id = t.id) :
    create_todo store t = (BAD_REQUEST, store) := by
  have hany : store.any (fun todo => todo.id == t.id) = true :=
    (create_any_iff store t).2 h
  simp [create_todo, hany]

theorem create_success (store : List Todo) (t : Todo)
    (h : ∀ x ∈ store, x.id ≠ t.id) :
    create_todo store t = (CREATED, store ++ [t]) := by
  have hany : store.any (fun todo => todo.id == t.id) = false := by
    simp only [List.any_eq_false]
    intro x hx
    simpa using h x hx
  simp [create_todo, hany]

theorem replaceFirst_eq_none (store : List Todo) (id : Nat) (t : Todo) :
    replaceFirst store id t = none ↔ ∀ x ∈ store, x.id ≠ id := by
  induction store with
  | nil => simp [replaceFirst]
  | cons todo rest ih =>
    by_cases h : todo.id = id
    · simp [replaceFirst, h]
    · simp [replaceFirst, h, ih]

theorem replaceFirst_prefix (a : List Todo) (x : Todo) (b : List Todo)
    (id : Nat) (t : Todo) (ha : ∀ y ∈ a, y.id ≠ id) (hx : x.id = id) :
    replaceFirst (a ++ x :: b) id t = some (a ++ t :: b) := by
  induction a with
  | nil => simp [replaceFirst, hx]
  | cons y a ih =>
    have hy : y.id ≠ id := ha y (by simp)
    have ihy := ih (fun z hz => ha z (by simp [hz]))
    simp [replaceFirst, hy, ihy]

theorem replaceFirst_map_id (store : List Todo) (id : Nat) (t : Todo)
    (ht : t.id = id) :
    ∀ v, replaceFirst store id t = some v → v.map Todo.id = store.map Todo.id := by
  induction store with
  | nil => intro v hv; simp [replaceFirst] at hv
  | cons todo rest ih =>
    intro v hv
    by_cases h : todo.id = id
    · simp [replaceFirst, h] at hv
      subst hv
      simp [ht, h]
    · simp [replaceFirst, h] at hv
      obtain ⟨w, hw, rfl⟩ := hv
      simp [ih w hw]

theorem delete_todo_store (store : List Todo) (id : Nat) :
    (delete_todo store id).2 = store.filter (fun todo => todo.id != id) := by
  simp only [delete_todo]
  split <;> rfl

theorem delete_todo_notFound (store : List Todo) (id : Nat) :
    (delete_todo store id).1 = NOT_FOUND ↔ ∀ x ∈ store, x.id ≠ id := by
  have hsub : (store.filter (fun todo => todo.id != id)).Sublist store :=
    List.filter_sublist store
  by_cases hlen : (store.filter (fun todo => todo.id != id)).length = store.length
  · have heq : store.filter (fun todo => todo.id != id) = store :=
      hsub.eq_of_length hlen
    have hall : ∀ x ∈ store, x.id ≠ id := by
      intro x hx
      simpa using (List.filter_eq_self.1 heq) x hx
    have hres : (delete_todo store id).1 = NOT_FOUND := by
      simp [delete_todo, hlen]
    exact iff_of_true hres hall
  · have hne : ((store.filter (fun todo => todo.id != id)).length != store.length) = true := by
      simpa using hlen
    have hres : (delete_todo store id).1 = NO_CONTENT := by
      simp [delete_todo, hne]
    have hnall : ¬ ∀ x ∈ store, x.id ≠ id := by
      intro hall
      exact hlen (by rw [List.filter_eq_self.2 (fun x hx => by simpa using hall x hx)])
    exact iff_of_false (by rw [hres]; decide) hnall


/-! ### Invariant preservation -/

theorem applyOp_uniqueIds (store : List Todo) (op : Op)
    (h : uniqueIds store) (hop : idConsistent op) :
    uniqueIds (applyOp store op) := by
  cases op with
  | create t =>
    by_cases hc : ∃ x ∈ store, x.id = t.id
    · simp [applyOp, create_conflict store t hc, h]
    · push_neg at hc
      have hx : t.id ∉ store.map Todo.id := by
        simp only [List.mem_map, not_exists, not_and]
        intro x hxmem
        exact hc x hxmem
      have hgoal : uniqueIds (store ++ [t]) := by
        simp only [uniqueIds, List.map_append, List.map_cons, List.map_nil,
          List.nodup_append, List.nodup_cons, List.not_mem_nil, not_false_iff,
          List.nodup_nil, and_true, true_and]
        refine ⟨h, ?_⟩
        intro a ha hb
        simp only [List.mem_singleton] at hb
        subst hb
        exact hx ha
      simpa [applyOp, create_success store t hc] using hgoal
  | update id t =>
    cases hrf : replaceFirst store id t with
    | none => simpa [applyOp, update_todo, hrf] using h
    | some v =>
      have hmap := replaceFirst_map_id store id t hop v hrf
      simpa [applyOp, update_todo, hrf, uniqueIds, hmap] using h
  | delete id =>
    have hsub : ((store.filter (fun todo => todo.id != id)).map Todo.id).Sublist
        (store.map Todo.id) :=
      List.Sublist.map Todo.id (List.filter_sublist store)
    simpa [applyOp, delete_todo_store, uniqueIds] using List.Nodup.sublist hsub h

/-- Claim C1 counterexample: starting from the empty store, create a todo
with id 1 and one with id 2, then update the entry at path id 1 with a body
whose id is 2.  The store then holds two entries with id 2, so the claimed
invariant fails (the update handler overwrites the whole entry, id
included, without checking the new id against the rest of the store). -/
theorem uniqueIds_violation :
    ¬ uniqueIds (applyOps new_store
      [Op.create ⟨1, "a", false⟩, Op.create ⟨2, "b", false⟩,
        Op.update 1 ⟨2, "c", false⟩]) := by
  decide

/-- Claim C1 (amended): for every sequence of create/update/delete
operations starting from the empty store in which every update's body todo
carries the same id as the update's path id, the store never contains two
entries with the same id. -/
theorem applyOps_uniqueIds (ops : List Op)
    (h : ∀ op ∈ ops, idConsistent op) :
    uniqueIds (applyOps new_store ops) := by
  have main : ∀ (l : List Op) (store : List Todo), uniqueIds store →
      (∀ op ∈ l, idConsistent op) → uniqueIds (applyOps store l) := by
    intro l
    induction l with
    | nil => intro store hs _; simpa [applyOps] using hs
    | cons op rest ih =>
      intro store hs hops
      have h1 := applyOp_uniqueIds store op hs (hops op (by simp))
      have h2 := ih (applyOp store op) h1 (fun o ho => hops o (by simp [ho]))
      simpa [applyOps] using h2
  exact main ops new_store (by simp [uniqueIds, new_store]) h

/-- Witness for the amended claim C1 at a concrete history. -/
theorem applyOps_uniqueIds_witness :
    uniqueIds (applyOps new_store
      [Op.create ⟨1, "a", false⟩, Op.update 1 ⟨1, "b", true⟩, Op.delete 1]) :=
  applyOps_uniqueIds _ (by decide)

/-- Claim C2: `create_todo` reports the duplicate-id failure (the handler's
`BAD_REQUEST` status, the "conflict" outcome of the spec) exactly when some
existing entry shares the new todo's id, and then leaves the store
unchanged; otherwise it appends the todo at the end and reports `CREATED`.
In particular a second create with the same id reports the conflict and
the store retains only the first entry. -/
theorem create_todo_spec (store : List Todo) (t : Todo) :
    ((create_todo store t).1 = BAD_REQUEST ↔ ∃ x ∈ store, x.id = t.id) ∧
    ((∃ x ∈ store, x.id = t.id) → (create_todo store t).2 = store) ∧
    ((∀ x ∈ store, x.id ≠ t.id) → create_todo store t = (CREATED, store ++ [t])) ∧
    (∀ t2 : Todo, t2.id = t.id → (∀ x ∈ store, x.id ≠ t.id) →
      create_todo (create_todo store t).2 t2 = (BAD_REQUEST, store ++ [t])) := by
  by_cases hc : ∃ x ∈ store, x.id = t.id
  · have heq := create_conflict store t hc
    refine ⟨iff_of_true (by rw [heq]) hc, fun _ => by rw [heq], ?_, ?_⟩
    · intro hall
      obtain ⟨x, hx, he⟩ := hc
      exact absurd he (hall x hx)
    · intro t2 _ hall
      obtain ⟨x, hx, he⟩ := hc
      exact absurd he (hall x hx)
  · push_neg at hc
    have heq := create_success store t hc
    refine ⟨iff_of_false (by simp [heq, CREATED, BAD_REQUEST]) (by push_neg; exact hc),
      ?_, fun _ => heq, ?_⟩
    · rintro ⟨x, hx, he⟩
      exact absurd he (hc x hx)
    · intro t2 ht2 _
      rw [heq]
      exact create_conflict (store ++ [t]) t2 ⟨t, by simp, by rw [ht2]⟩

/-- Witness for claim C2: creating id 1 twice from the empty store; the
second create reports `BAD_REQUEST` and the store keeps only the first. -/
theorem create_todo_spec_witness :
    create_todo (create_todo new_store ⟨1, "a", false⟩).2 ⟨1, "b", true⟩ =
      (BAD_REQUEST, [⟨1, "a", false⟩]) := by
  have h := (create_todo_spec new_store ⟨1, "a", false⟩).2.2.2
    ⟨1, "b", true⟩ (by decide) (by decide)
  simpa [new_store] using h

/-- Claim C3: `delete_todo` removes every entry matching the id (no entry
with that id survives), and reports `NOT_FOUND` exactly when no entry was
removed (every stored id differs from the requested one); in particular,
after a successful create of a todo with that id, a delete leaves the
store with no matching entry and reports `NO_CONTENT`, and a second delete
reports `NOT_FOUND`. -/
theorem delete_todo_spec (store : List Todo) (id : Nat) :
    (∀ x ∈ (delete_todo store id).2, x.id ≠ id) ∧
    ((delete_todo store id).1 = NOT_FOUND ↔ ∀ x ∈ store, x.id ≠ id) ∧
    (∀ t : Todo, t.id = id → (∀ x ∈ store, x.id ≠ t.id) →
      (delete_todo (create_todo store t).2 id).1 = NO_CONTENT ∧
      (∀ x ∈ (delete_todo (create_todo store t).2 id).2, x.id ≠ id) ∧
      (delete_todo (delete_todo (create_todo store t).2 id).2 id).1 = NOT_FOUND) := by
  have hclean : ∀ s : List Todo, ∀ x ∈ (delete_todo s id).2, x.id ≠ id := by
    intro s x hx
    rw [delete_todo_store] at hx
    simpa using List.of_mem_filter hx
  refine ⟨hclean store, delete_todo_notFound store id, ?_⟩
  intro t ht hall
  have hall' : ∀ x ∈ store, x.id ≠ id := fun x hx => ht ▸ hall x hx
  have hcreate := create_success store t hall
  have hfilter : (store ++ [t]).filter (fun x => x.id != id) = store := by
    rw [List.filter_append]
    have h1 : store.filter (fun x => x.id != id) = store :=
      List.filter_eq_self.2 (fun x hx => by simpa using hall' x hx)
    have h2 : [t].filter (fun x => x.id != id) = [] := by simp [ht]
    simp [h1, h2]
  have hlen : (((store ++ [t]).filter (fun x => x.id != id)).length
      != (store ++ [t]).length) = true := by
    rw [hfilter]
    simp only [bne_iff_ne, List.length_append, List.length_cons, List.length_nil]
    omega
  have hd1 : delete_todo (store ++ [t]) id = (NO_CONTENT, store) := by
    simp [delete_todo, hlen, hfilter]
  refine ⟨?_, ?_, ?_⟩
  · rw [hcreate]
    simp only [hd1]
  · rw [hcreate]
    exact hclean (store ++ [t])
  · rw [hcreate]
    simp only [hd1]
    exact (delete_todo_notFound store id).2 hall'

/-- Witness for claim C3: create id 5 in the empty store, delete it
(`NO_CONTENT`), delete again (`NOT_FOUND`). -/
theorem delete_todo_spec_witness :
    (delete_todo (create_todo new_store ⟨5, "x", false⟩).2 5).1 = NO_CONTENT ∧
    (delete_todo (delete_todo (create_todo new_store ⟨5, "x", false⟩).2 5).2 5).1
      = NOT_FOUND := by
  have h := (delete_todo_spec new_store 5).2.2 ⟨5, "x", false⟩ (by decide) (by decide)
  exact ⟨h.1, h.2.2⟩

/-- Claim C4: `update_todo` scans the vector in order; when no entry
matches the path id it reports `NOT_FOUND` with the store unchanged; when
the vector splits as `a ++ x :: b` with every entry of `a` missing the id
and `x` matching it (i.e. `x` is the first match), the handler replaces
`x` in place with the request body and reports `OK`. -/
theorem update_todo_spec (store : List Todo) (id : Nat) (t : Todo) :
    ((∀ x ∈ store, x.id ≠ id) → update_todo store id t = (NOT_FOUND, store)) ∧
    (∀ (a : List Todo) (x : Todo) (b : List Todo),
      store = a ++ x :: b → (∀ y ∈ a, y.id ≠ id) → x.id = id →
      update_todo store id t = (OK, a ++ t :: b)) := by
  constructor
  · intro hall
    have hrf : replaceFirst store id t = none := (replaceFirst_eq_none store id t).2 hall
    simp [update_todo, hrf]
  · intro a x b heq ha hx
    subst heq
    have hrf := replaceFirst_prefix a x b id t ha hx
    simp [update_todo, hrf]

/-- Witness for claim C4: updating id 1 in a singleton store replaces the
entry with the request body. -/
theorem update_todo_spec_witness :
    update_todo [⟨1, "a", false⟩] 1 ⟨1, "b", true⟩ = (OK, [⟨1, "b", true⟩]) := by
  have h := (update_todo_spec [⟨1, "a", false⟩] 1 ⟨1, "b", true⟩).2
    [] ⟨1, "a", false⟩ [] rfl (by decide) (by decide)
  simpa using h

/-- Claim C10: when `update_todo` succeeds (the store splits at the first
entry matching the path id), the matched entry is replaced by the
request-body todo in its entirety — the stored entry at that position
becomes exactly `t` (so its id is `t.id`, which need not equal the path
id) — while the store's length and every other position are unchanged. -/
theorem update_todo_replaces (store : List Todo) (id : Nat) (t : Todo)
    (a : List Todo) (x : Todo) (b : List Todo)
    (heq : store = a ++ x :: b) (ha : ∀ y ∈ a, y.id ≠ id) (hx : x.id = id) :
    (update_todo store id t).1 = OK ∧
    (update_todo store id t).2 = a ++ t :: b ∧
    (update_todo store id t).2.length = store.length ∧
    (update_todo store id t).2[a.length]? = some t ∧
    ((update_todo store id t).2[a.length]?.map Todo.id = some t.id) ∧
    (∀ i, i ≠ a.length → (update_todo store id t).2[i]? = store[i]?) := by
  subst heq
  have hrf := replaceFirst_prefix a x b id t ha hx
  have hupd : update_todo (a ++ x :: b) id t = (OK, a ++ t :: b) := by
    simp [update_todo, hrf]
  rw [hupd]
  have hget : (a ++ t :: b)[a.length]? = some t := by
    rw [List.getElem?_append_right (Nat.le_refl a.length)]
    simp
  refine ⟨rfl, rfl, by simp, hget, by rw [hget]; rfl, ?_⟩
  intro i hi
  rcases Nat.lt_trichotomy i a.length with hlt | heq | hgt
  · rw [List.getElem?_append, List.getElem?_append]
    simp [hlt]
  · exact absurd heq hi
  · have hle : a.length ≤ i := Nat.le_of_lt hgt
    rw [List.getElem?_append_right hle, List.getElem?_append_right hle]
    obtain ⟨k, hk⟩ : ∃ k, i - a.length = k + 1 := ⟨i - a.length - 1, by omega⟩
    rw [hk]
    simp

/-- Witness for claim C10: updating path id 1 with a body whose id is 7
replaces the whole entry, id included. -/
theorem update_todo_replaces_witness :
    (update_todo [⟨1, "a", false⟩, ⟨2, "b", false⟩] 1 ⟨7, "c", true⟩).2 =
      [⟨7, "c", true⟩, ⟨2, "b", false⟩] := by
  have h := update_todo_replaces [⟨1, "a", false⟩, ⟨2, "b", false⟩] 1 ⟨7, "c", true⟩
    [] ⟨1, "a", false⟩ [⟨2, "b", false⟩] rfl (by decide) (by decide)
  simpa using h.2.1

/-- Claim C5: `list_todos` returns the entries in insertion order starting
at the offset (default 0), capped at the limit (default unbounded, i.e.
`usize::MAX`): the result's length is `min limit (length - offset)`, its
`i`-th entry is the store's `(offset + i)`-th entry while `i < limit`, an
offset at or beyond the store's length yields the empty sequence, omitted
options default to offset 0 and an unbounded limit, and on a 5-entry
store `offset = 2, limit = 1` returns exactly the entry at index 2. -/
theorem list_todos_spec (store : List Todo) (off lim : Nat) :
    ((list_todos store ⟨some off, some lim⟩).1.length = min lim (store.length - off)) ∧
    (∀ i, (list_todos store ⟨some off, some lim⟩).1[i]? =
      if i < lim then store[off + i]? else none) ∧
    (store.length ≤ off → (list_todos store ⟨some off, some lim⟩).1 = []) ∧
    (store.length ≤ usizeMax → (list_todos store ⟨none, none⟩).1 = store) ∧
    (∀ t0 t1 t2 t3 t4 : Todo,
      (list_todos [t0, t1, t2, t3, t4] ⟨some 2, some 1⟩).1 = [t2]) := by
  refine ⟨?_, ?_, ?_, ?_, ?_⟩
  · simp [list_todos, List.length_take, List.length_drop]
  · intro i
    simp [list_todos, List.getElem?_take, List.getElem?_drop]
  · intro h
    simp [list_todos, List.drop_eq_nil_of_le h]
  · intro h
    simp only [list_todos, Option.getD_none, List.drop_zero]
    exact List.take_of_length_le h
  · intro t0 t1 t2 t3 t4
    rfl

/-- Witness for claim C5: an out-of-range offset yields `[]`, and omitted
options return the whole store. -/
theorem list_todos_spec_witness :
    (list_todos [⟨1, "a", false⟩] ⟨some 3, some 2⟩).1 = [] ∧
    (list_todos [⟨1, "a", false⟩] ⟨none, none⟩).1 = [⟨1, "a", false⟩] := by
  have h := list_todos_spec [⟨1, "a", false⟩] 3 2
  exact ⟨h.2.2.1 (by decide), h.2.2.2.1 (by decide)⟩

/-- Claim C6: if `create_todo` succeeds (status `CREATED`), listing with no
offset and no limit right after returns a sequence containing the created
entry exactly once.  (The store-length bound reflects that a `Vec` can
never hold more than `usize::MAX` elements.) -/
theorem create_then_list_once (store : List Todo) (t : Todo)
    (hok : (create_todo store t).1 = CREATED) (hlen : store.length < usizeMax) :
    (list_todos (create_todo store t).2 ⟨none, none⟩).1.count t = 1 := by
  by_cases hc : ∃ x ∈ store, x.id = t.id
  · rw [create_conflict store t hc] at hok
    simp [BAD_REQUEST, CREATED] at hok
  · push_neg at hc
    rw [create_success store t hc]
    have hall : (list_todos (store ++ [t]) ⟨none, none⟩).1 = store ++ [t] := by
      simp only [list_todos, Option.getD_none, List.drop_zero]
      exact List.take_of_length_le (by simp; omega)
    rw [hall, List.count_append]
    have hzero : store.count t = 0 := by
      rw [List.count_eq_zero]
      intro hmem
      exact hc t hmem rfl
    simp [hzero]

/-- Witness for claim C6: creating id 1 in the empty store and listing. -/
theorem create_then_list_once_witness :
    (list_todos (create_todo new_store ⟨1, "a", false⟩).2 ⟨none, none⟩).1.count
      ⟨1, "a", false⟩ = 1 :=
  create_then_list_once new_store ⟨1, "a", false⟩ (by decide) (by decide)

/-- Claim C8: when the request body of `update_todo` fails to parse as a
`Todo`, or the path parameter of `delete_todo` fails to parse as a `u64`,
the handler unwraps the failure and aborts the request with a runtime
failure (no response at all, embedded as `none`) instead of producing a
clean 4xx response. -/
theorem parse_failure_aborts :
    (∀ (e : String) (id : Nat) (store : List Todo),
      update_todo_handler (Except.error e) id store = none) ∧
    (∀ store : List Todo, delete_todo_handler none store = none) :=
  ⟨fun _ _ _ => rfl, fun _ => rfl⟩

/-- Claim C9: `list_todos` never changes the store — it reads a clone of
the guarded vector, so the vector after the call is the one before it,
whatever the offset and limit options are. -/
theorem list_todos_frame (store : List Todo) (opts : ListOptions) :
    (list_todos store opts).2 = store := rfl

end TodosOapi

namespace FlashSessionStore

/-- Folding string concatenation from any accumulator hoists the
accumulator out of the fold. -/
theorem foldl_append_eq_join (l : List String) (acc : String) :
    l.foldl (fun r s => r ++ s) acc = acc ++ String.join l := by
  induction l generalizing acc with
  | nil => simp [String.join, String.append_empty]
  | cons s l ih =>
    rw [List.foldl_cons, ih (acc ++ s)]
    have hjoin : String.join (s :: l) = s ++ String.join l := by
      show (s :: l).foldl (fun r s => r ++ s) "" = s ++ String.join l
      rw [List.foldl_cons, ih ("" ++ s), String.empty_append s]
    rw [hjoin, String.append_assoc]

/-- Claim C7: the `get_flash` handler renders an empty body when the
request carries no incoming flash messages, and otherwise a body that is
exactly the concatenation, in the order the messages appear in the
incoming flash list, of one line `"<value> - <level>\n"` per message. -/
theorem get_flash_spec :
    get_flash none = "" ∧
    (∀ msgs : List FlashMessage,
      get_flash (some msgs) = String.join (msgs.map flashLine)) := by
  refine ⟨rfl, fun msgs => ?_⟩
  have hfun : (fun (body : String) (message : FlashMessage) =>
      body ++ message.value ++ " - " ++ message.level.toString ++ "\n") =
      (fun (body : String) (message : FlashMessage) => body ++ flashLine message) := by
    funext body message
    simp [flashLine, String.append_assoc]
  show msgs.foldl (fun body message =>
    body ++ message.value ++ " - " ++ message.level.toString ++ "\n") "" = _
  rw [hfun]
  have hmap := List.foldl_map flashLine (fun (r s : String) => r ++ s) msgs ""
  rw [← hmap, foldl_append_eq_join, String.empty_append]

end FlashSessionStore
